import Mathlib

/-!
Verification development for the Resume-Shortlister repository
(src/app.py and src/models.py).

The Python program is shallowly embedded as executable Lean definitions:

* String preprocessing of the model response (app.py line 71) is embedded
  through character-list models of Python str.strip, str.replace and
  str.endswith.
* json.loads is embedded as an executable recursive-descent parser over the
  JSON value type JValue, restricted to integer numerals (the schema under
  verification only uses integers, strings and booleans; float literals and
  backslash-u escapes are rejected with an error, which is noted at each
  theorem that depends on the parser).
* pydantic construction of CandidateAnalysis (models.py) is embedded as
  buildCandidate, which validates field presence, field type (with the
  numeric coercions of pydantic v1) and the score range 0..100, reporting
  the first violation.
* The Streamlit orchestration (extraction loop, validation of user input,
  ranking) is embedded as pure functions over an oracle
  gemini : String -> String standing for the external model call.

Side effects are made explicit: st.error diagnostics become returned lists
of message strings, and the network call becomes the oracle argument.
-/

set_option maxHeartbeats 1000000
set_option maxRecDepth 100000

/-- Characters removed by Python str.strip with no argument (ASCII whitespace
as relevant to model responses). -/
def isPyWs (c : Char) : Bool :=
  c == ' ' || c == '\t' || c == '\n' || c == '\r' || c == '\x0b' || c == '\x0c'

/-- Model of Python str.strip with no argument: removes leading and trailing
whitespace characters. -/
def pyStrip (s : String) : String :=
  String.mk (((s.data.dropWhile isPyWs).reverse.dropWhile isPyWs).reverse)

/-- Model of Python str.replace(old, new) on character lists: every
non-overlapping occurrence of old is replaced, scanning left to right.  The
two call sites in the program use the non-empty literal patterns of app.py
line 71, so the special behaviour of str.replace on an empty pattern is not
modelled. -/
def replaceListAux (old new : List Char) : Nat → List Char → List Char
  | 0, l => l
  | fuel + 1, l =>
    match l with
    | [] => []
    | c :: rest =>
      if old.isPrefixOf (c :: rest) then
        new ++ replaceListAux old new fuel (rest.drop (old.length - 1))
      else
        c :: replaceListAux old new fuel rest

/-- Replacement scan started with enough fuel for the whole input; the fuel
only decreases bookkeeping-wise, every recursive call keeps it at or above
the length of the remaining input. -/
def replaceList (old new l : List Char) : List Char :=
  replaceListAux old new l.length l

/-- Model of Python str.replace(old, new). -/
def replaceStr (s old new : String) : String :=
  String.mk (replaceList old.data new.data s.data)

/-- Model of Python str.endswith(suffix): case-sensitive suffix test. -/
def pyEndsWith (s suffix : String) : Bool :=
  suffix.data.isSuffixOf s.data

/-- Embedding of app.py line 71: the preprocessing applied to the raw model
response before JSON parsing,
response.text.strip().replace("```json", "").replace("```", ""). -/
def prepare (response_text : String) : String :=
  replaceStr (replaceStr (pyStrip response_text) "```json" "") "```" ""

/-- JSON values as produced by json.loads on the responses in scope:
objects, arrays, strings, integer numerals, booleans and null. -/
inductive JValue where
  | null : JValue
  | bool (b : Bool) : JValue
  | num (n : Int) : JValue
  | str (s : String) : JValue
  | arr (elems : List JValue) : JValue
  | obj (fields : List (String × JValue)) : JValue

/-- Lookup in a parsed JSON object, modelling Python dict access: the field
lists built by the parser have distinct keys (duplicates are collapsed the
way dict construction collapses them), and lookup returns the stored value. -/
def dictGet (d : List (String × JValue)) (k : String) : Option JValue :=
  match d with
  | [] => none
  | (k1, v) :: rest => if k1 = k then some v else dictGet rest k

/-- Update or insert in a parsed JSON object, modelling Python dict item
assignment: an existing key keeps its position and gets the new value, a new
key is appended. -/
def dictSet (d : List (String × JValue)) (k : String) (v : JValue) :
    List (String × JValue) :=
  match d with
  | [] => [(k, v)]
  | (k1, v1) :: rest =>
    if k1 = k then (k1, v) :: rest else (k1, v1) :: dictSet rest k v

/-- Whitespace accepted by the Python json module between tokens. -/
def isJsonWs (c : Char) : Bool :=
  c == ' ' || c == '\t' || c == '\n' || c == '\r'

/-- Skips JSON inter-token whitespace. -/
def jsonSkipWs (l : List Char) : List Char :=
  l.dropWhile isJsonWs

/-- Opening curly brace character. -/
def lbraceCh : Char := '\x7b'

/-- Closing curly brace character. -/
def rbraceCh : Char := '\x7d'

/-- Decodes the character following a backslash in a JSON string literal.
Backslash-u escapes are not modelled and are rejected. -/
def jsonEscChar : Char → Option Char
  | 'n' => some '\n'
  | 't' => some '\t'
  | 'r' => some '\r'
  | 'b' => some '\x08'
  | 'f' => some '\x0c'
  | '"' => some '"'
  | '/' => some '/'
  | '\\' => some '\\'
  | _ => none

/-- Parses the body of a JSON string literal, positioned just after the
opening quote; returns the decoded characters and the remaining input. -/
def jsonParseStr : List Char → Except String (List Char × List Char)
  | [] => .error "Unterminated string"
  | c :: rest =>
    if c == '"' then .ok ([], rest)
    else if c == '\\' then
      match rest with
      | [] => .error "Unterminated string"
      | e :: rest2 =>
        match jsonEscChar e with
        | none => .error "Invalid escape"
        | some c2 =>
          match jsonParseStr rest2 with
          | .error msg => .error msg
          | .ok (s, r) => .ok (c2 :: s, r)
    else
      match jsonParseStr rest with
      | .error msg => .error msg
      | .ok (s, r) => .ok (c :: s, r)

/-- Numeric value of a decimal digit character. -/
def digitVal (c : Char) : Nat := c.toNat - 48

/-- Decimal value of a digit list, most significant digit first. -/
def natFromDigits (ds : List Char) : Nat :=
  ds.foldl (fun acc c => acc * 10 + digitVal c) 0

mutual

/-- Recursive-descent parser for one JSON value, modelling json.loads;
returns the value and the unconsumed input.  The fuel argument bounds the
nesting depth and is instantiated with the input length plus one, which every
recursion (each of which first consumes at least one character) stays below. -/
def jsonParseVal : Nat → List Char → Except String (JValue × List Char)
  | 0, _ => .error "Nesting too deep"
  | fuel + 1, l =>
    match jsonSkipWs l with
    | [] => .error "Expecting value"
    | c :: rest =>
      if c == '"' then
        match jsonParseStr rest with
        | .error e => .error e
        | .ok (s, r) => .ok (.str (String.mk s), r)
      else if c == lbraceCh then jsonParseObj fuel rest []
      else if c == '[' then jsonParseArr fuel rest []
      else if c == 't' then
        if ['r', 'u', 'e'].isPrefixOf rest then .ok (.bool true, rest.drop 3)
        else .error "Expecting value"
      else if c == 'f' then
        if ['a', 'l', 's', 'e'].isPrefixOf rest then .ok (.bool false, rest.drop 4)
        else .error "Expecting value"
      else if c == 'n' then
        if ['u', 'l', 'l'].isPrefixOf rest then .ok (.null, rest.drop 3)
        else .error "Expecting value"
      else if c == '-' || c.isDigit then
        let l1 := if c == '-' then rest else c :: rest
        let ds := l1.takeWhile Char.isDigit
        let r := l1.dropWhile Char.isDigit
        if ds.isEmpty then .error "Expecting value"
        else if 1 < ds.length && ds.headD '0' == '0' then .error "Invalid number"
        else
          let n : Int := if c == '-' then -(natFromDigits ds : Int) else (natFromDigits ds : Int)
          match r with
          | c2 :: _ =>
            if c2 == '.' || c2 == 'e' || c2 == 'E' then
              .error "Float literals are not modelled"
            else .ok (.num n, r)
          | [] => .ok (.num n, r)
      else .error "Expecting value"

/-- Parses the members of a JSON object, positioned just after the opening
brace or after a separating comma; duplicate keys are collapsed by dictSet
the way Python dict construction collapses them. -/
def jsonParseObj : Nat → List Char → List (String × JValue) →
    Except String (JValue × List Char)
  | 0, _, _ => .error "Nesting too deep"
  | fuel + 1, l, acc =>
    match jsonSkipWs l with
    | [] => .error "Unterminated object"
    | c :: rest =>
      if c == rbraceCh && acc.isEmpty then .ok (.obj [], rest)
      else if c == '"' then
        match jsonParseStr rest with
        | .error e => .error e
        | .ok (k, r) =>
          match jsonSkipWs r with
          | ':' :: r2 =>
            match jsonParseVal fuel r2 with
            | .error e => .error e
            | .ok (v, r3) =>
              let acc2 := dictSet acc (String.mk k) v
              match jsonSkipWs r3 with
              | ',' :: r4 => jsonParseObj fuel r4 acc2
              | c2 :: r4 =>
                if c2 == rbraceCh then .ok (.obj acc2, r4)
                else .error "Expecting delimiter"
              | [] => .error "Unterminated object"
          | _ => .error "Expecting colon delimiter"
      else .error "Expecting property name"

/-- Parses the elements of a JSON array, positioned just after the opening
bracket or after a separating comma. -/
def jsonParseArr : Nat → List Char → List JValue →
    Except String (JValue × List Char)
  | 0, _, _ => .error "Nesting too deep"
  | fuel + 1, l, acc =>
    match jsonSkipWs l with
    | [] => .error "Unterminated array"
    | c :: rest =>
      if c == ']' && acc.isEmpty then .ok (.arr [], rest)
      else
        match jsonParseVal fuel (c :: rest) with
        | .error e => .error e
        | .ok (v, r) =>
          match jsonSkipWs r with
          | ',' :: r2 => jsonParseArr fuel r2 (acc ++ [v])
          | c2 :: r2 =>
            if c2 == ']' then .ok (.arr (acc ++ [v]), r2)
            else .error "Expecting delimiter"
          | [] => .error "Unterminated array"

end

/-- Embedding of json.loads on the prepared response text: parses exactly one
JSON value surrounded by optional whitespace. -/
def jsonParse (s : String) : Except String JValue :=
  match jsonParseVal (s.data.length + 1) s.data with
  | .error e => .error e
  | .ok (v, rest) =>
    match jsonSkipWs rest with
    | [] => .ok v
    | _ => .error "Extra data"

mutual

/-- Model of the Python repr of a value produced by json.loads, as rendered
by an f-string when the value is not a string: dict and list contents are
shown with single-quoted strings.  Only used by the reasoning-normalization
step for non-string sub-fields; quote escaping inside repr is not modelled. -/
def pyRepr : JValue → String
  | .null => "None"
  | .bool b => if b then "True" else "False"
  | .num n => toString n
  | .str s => "\x27" ++ s ++ "\x27"
  | .arr xs => "[" ++ pyReprArr xs ++ "]"
  | .obj fs => "\x7b" ++ pyReprObj fs ++ "\x7d"

/-- Comma-separated repr of list elements. -/
def pyReprArr : List JValue → String
  | [] => ""
  | [x] => pyRepr x
  | x :: y :: xs => pyRepr x ++ ", " ++ pyReprArr (y :: xs)

/-- Comma-separated repr of dict items. -/
def pyReprObj : List (String × JValue) → String
  | [] => ""
  | [(k, v)] => "\x27" ++ k ++ "\x27: " ++ pyRepr v
  | (k, v) :: f :: fs => "\x27" ++ k ++ "\x27: " ++ pyRepr v ++ ", " ++ pyReprObj (f :: fs)

end

/-- Model of Python str() applied to a value from json.loads, as an f-string
interpolates it: a string stays itself, other values render as their repr. -/
def pyStr : JValue → String
  | .str s => s
  | v => pyRepr v

/-- Embedding of the pydantic model CandidateAnalysis of src/models.py.  The
field constraints (score between 0 and 100) are enforced at construction by
buildCandidate below, not by the structure itself, mirroring pydantic, where
an already-constructed instance simply holds the validated data. -/
structure CandidateAnalysis where
  candidate_name : String
  score : Int
  summary : String
  reasoning : String
  is_recommended : Bool
deriving DecidableEq, Repr

/-- Model of pydantic v1 string-field validation: strings are accepted as
they are, and numbers and booleans are coerced to their decimal or Python
text form, as pydantic v1 str fields coerce them. -/
def validateStr (v : JValue) : Except String String :=
  match v with
  | .str s => .ok s
  | .num n => .ok (toString n)
  | .bool b => .ok (if b then "True" else "False")
  | _ => .error "str type expected"

/-- Model of Python int() applied to a string: surrounding whitespace is
ignored, then an optional sign and a non-empty digit run. -/
def pyIntOfString (s : String) : Option Int :=
  let t := (pyStrip s).data
  let ds := match t with
    | c :: rest => if c == '-' || c == '+' then rest else t
    | [] => t
  let neg := match t with
    | c :: _ => c == '-'
    | [] => false
  if ds.isEmpty || !(ds.all Char.isDigit) then none
  else some (if neg then -(natFromDigits ds : Int) else (natFromDigits ds : Int))

/-- Model of pydantic v1 integer-field validation: integers are accepted,
booleans coerce to 0 or 1 and numeric strings are converted, as pydantic v1
int fields coerce them; anything else is a validation error. -/
def validateInt (v : JValue) : Except String Int :=
  match v with
  | .num n => .ok n
  | .bool b => .ok (if b then 1 else 0)
  | .str s =>
    match pyIntOfString s with
    | some n => .ok n
    | none => .error "value is not a valid integer"
  | _ => .error "value is not a valid integer"

/-- Model of pydantic v1 boolean-field validation: booleans are accepted, the
integers 0 and 1 and the usual truthy and falsy strings are coerced, anything
else is a validation error. -/
def validateBool (v : JValue) : Except String Bool :=
  match v with
  | .bool b => .ok b
  | .num n =>
    if n == 0 then .ok false
    else if n == 1 then .ok true
    else .error "value could not be parsed to a boolean"
  | .str s =>
    if ["0", "off", "f", "false", "n", "no"].contains s.toLower then .ok false
    else if ["1", "on", "t", "true", "y", "yes"].contains s.toLower then .ok true
    else .error "value could not be parsed to a boolean"
  | _ => .error "value could not be parsed to a boolean"

/-- Text of a pydantic validation error for one field, in the shape pydantic
v1 renders into str(e).  Pydantic reports every failing field; this model
reports the first one in declaration order, which is the only part the
program ever surfaces inside a longer diagnostic string. -/
def valErr (field msg : String) : String :=
  "1 validation error for CandidateAnalysis\n" ++ field ++ "\n  " ++ msg

/-- Embedding of CandidateAnalysis(**response_json) of app.py line 80 against
the schema of src/models.py: each declared field must be present and of a
coercible type, and score must lie in the inclusive range 0 to 100 (the ge=0,
le=100 constraints of models.py line 6).  A violation is a pydantic
ValidationError, returned here as the error case. -/
def buildCandidate (response_json : List (String × JValue)) :
    Except String CandidateAnalysis :=
  match dictGet response_json "candidate_name" with
  | none => .error (valErr "candidate_name" "field required")
  | some v1 =>
    match validateStr v1 with
    | .error m => .error (valErr "candidate_name" m)
    | .ok candidate_name =>
      match dictGet response_json "score" with
      | none => .error (valErr "score" "field required")
      | some v2 =>
        match validateInt v2 with
        | .error m => .error (valErr "score" m)
        | .ok score =>
          if score < 0 then
            .error (valErr "score" "ensure this value is greater than or equal to 0")
          else if 100 < score then
            .error (valErr "score" "ensure this value is less than or equal to 100")
          else
            match dictGet response_json "summary" with
            | none => .error (valErr "summary" "field required")
            | some v3 =>
              match validateStr v3 with
              | .error m => .error (valErr "summary" m)
              | .ok summary =>
                match dictGet response_json "reasoning" with
                | none => .error (valErr "reasoning" "field required")
                | some v4 =>
                  match validateStr v4 with
                  | .error m => .error (valErr "reasoning" m)
                  | .ok reasoning =>
                    match dictGet response_json "is_recommended" with
                    | none => .error (valErr "is_recommended" "field required")
                    | some v5 =>
                      match validateBool v5 with
                      | .error m => .error (valErr "is_recommended" m)
                      | .ok is_recommended =>
                        .ok { candidate_name := candidate_name, score := score,
                              summary := summary, reasoning := reasoning,
                              is_recommended := is_recommended }

/-- Embedding of app.py lines 74 to 78: when the parsed reasoning field is
itself a dict, it is rebuilt into the canonical markdown string, with missing
Strengths or Gaps sub-fields defaulting to the text N/A. -/
def normalizeReasoning (response_json : List (String × JValue)) :
    List (String × JValue) :=
  match dictGet response_json "reasoning" with
  | some (.obj reasoning_dict) =>
    let strengths := match dictGet reasoning_dict "Strengths" with
      | some v => pyStr v
      | none => "N/A"
    let gaps := match dictGet reasoning_dict "Gaps" with
      | some v => pyStr v
      | none => "N/A"
    dictSet response_json "reasoning"
      (.str ("\n**Strengths:**\n" ++ strengths ++ "\n\n**Gaps:**\n" ++ gaps))
  | _ => response_json

/-- Fallback record of app.py lines 84 to 87, returned by the handler for
json.JSONDecodeError, TypeError and KeyError; its reasoning field embeds the
raw (unprepared) model response text. -/
def jsonErrorFallback (response_text_raw : String) : CandidateAnalysis :=
  { candidate_name := "Unknown/Error", score := 0,
    summary := "Analysis failed due to response format error !",
    reasoning := "Failed to parse model output, raw response : " ++ response_text_raw,
    is_recommended := false }

/-- Fallback record of app.py lines 90 to 93, returned by the generic
handler for any other exception; its reasoning field embeds str(e). -/
def unexpectedFallback (e : String) : CandidateAnalysis :=
  { candidate_name := "Unknown/Error", score := 0,
    summary := "Analysis failed !",
    reasoning := "An unexpected error occurred : " ++ e,
    is_recommended := false }

/-- Message shown by st.error in the JSON-error handler of app.py line 83. -/
def jsonErrorDiagMsg (e : String) : String :=
  "Error parsing Gemini\x27s JSON response : " ++ e ++
    ", the model might have returned an invalid format !"

/-- Message shown by st.error in the generic handler of app.py line 89. -/
def unexpectedDiagMsg (e : String) : String :=
  "An unexpected error occurred during analysis : " ++ e

/-- Exception text for calling .get on a json.loads result that is not a
dict, which is what app.py line 74 raises on a valid non-object response. -/
def attrErrMsg : String :=
  "object has no attribute \x27get\x27"

/-- Embedding of the response-handling part of analyze_with_gemini (app.py
lines 71 to 93), from the raw model response text to the returned
CandidateAnalysis, paired with the list of st.error diagnostics emitted.

Exception-flow notes, traced from the source: json.loads failures raise
json.JSONDecodeError and land in the first handler (line 82).  Once line 74
runs, a response that parsed to anything but a dict raises AttributeError at
the .get call, and a pydantic ValidationError from line 80 is a ValueError;
neither is a TypeError or KeyError, so both land in the generic handler
(line 88).  The function is total: every path returns a record, so no
exception propagates to the caller. -/
def analyzeParse (response_text_raw : String) : CandidateAnalysis × List String :=
  let response_text := prepare response_text_raw
  match jsonParse response_text with
  | .error e =>
    (jsonErrorFallback response_text_raw, [jsonErrorDiagMsg e])
  | .ok (.obj response_json) =>
    match buildCandidate (normalizeReasoning response_json) with
    | .ok c => (c, [])
    | .error e => (unexpectedFallback e, [unexpectedDiagMsg e])
  | .ok _ =>
    (unexpectedFallback attrErrMsg, [unexpectedDiagMsg attrErrMsg])

/-- Text of the prompt template of app.py lines 19 to 49 up to the
job-description placeholder, after .format has resolved the doubled braces. -/
def promptSegA : String :=
  "\nYou are a highly intelligent AI-powered Technical Recruiter. \nYour primary goal is to dynamically adapt your expertise to match the specific role described in the provided Job Description. \nYou must act as a specialist for whatever role is presented to you.\n\nInstructions:\n1.  Determine Key Criteria: First, carefully analyze the provided \x27Job Description\x27 to identify the 5-7 most critical skills, technologies and qualifications required for the role. This set of criteria becomes your evaluation rubric. Do not use a generic software engineering rubric, it must be tailored to the specific job.\n2.  Analyze the Resume against Criteria: Next, thoroughly review the candidate\x27s \x27Resume Text\x27. Scrutinize their experience, projects and listed skills to find evidence of the key criteria you identified in step 1.\n3.  Score and Justify: Based on how well the resume aligns with the key criteria, provide a holistic fit score from 0 to 100. Your reasoning must clearly connect the resume\x27s content (or lack thereof) to the job description\x27s specific requirements.\n4.  Maintain Objectivity: Base your entire analysis strictly on the information given in the resume and the job description. Do not invent or infer details.\n5.  JSON Output Only: Your entire response must be a single, valid JSON object. Do not include any text, explanations or markdown formatting before or after the JSON object.\n\nJob Description:\n<job_description>\n"

/-- Text of the prompt template between the job-description and resume-text
placeholders. -/
def promptSegB : String :=
  "\n</job_description>\n\nResume Text:\n<resume_text>\n"

/-- Text of the prompt template after the resume-text placeholder. -/
def promptSegC : String :=
  "\n</resume_text>\n\nRequired JSON Output Format:\n\x7b\n    \"candidate_name\": \"Full Name\",\n    \"score\": <integer from 0-100>,\n    \"summary\": \"A 2-3 sentence summary of the candidate\x27s overall fit for this specific role.\",\n    \"reasoning\": \"A single string containing a detailed analysis in markdown format. It must start with \x27**Strengths:**\x27 followed by bullet points and then \x27**Gaps:**\x27 followed by bullet points. For example: \x27**Strengths:**\\n- 5+ years of Java experience.\\n- Experience with REST APIs and SQL.\\n\\n**Gaps:**\\n- Lacks experience with cloud platforms (AWS/GCP) mentioned in the JD.\x27\",\n    \"is_recommended\": <boolean, true if score >= 70, else false>\n\x7d\n"

/-- Embedding of PROMPT_TEMPLATE.format(...) of app.py line 67: pure string
interpolation of the job description and resume text into the fixed
template, with no escaping of either input. -/
def buildPrompt (job_description resume_text : String) : String :=
  promptSegA ++ job_description ++ promptSegB ++ resume_text ++ promptSegC

/-- Abstract model of the byte content of one uploaded file: instead of raw
bytes, it records what the two extraction libraries would produce on those
bytes.  pdfPages is some list of per-page texts when fitz.open succeeds on
the bytes as a PDF (page.get_text() for each page, in page order) and none
when the library raises on them; docxParas likewise holds the per-paragraph
texts that docx.Document yields, in document order, or none when it raises. -/
structure FileBytes where
  pdfPages : Option (List String)
  docxParas : Option (List String)
deriving DecidableEq, Repr

/-- Embedding of parse_resume of app.py lines 51 to 63.  The text variable
starts empty; a recognized extension dispatches to the matching library, and
any library exception is caught (the except at line 61 reports it through
st.error) leaving the empty text to be returned.  Unrecognized filenames
fall through both branches and return the empty string.  The function is
total, so no exception propagates to the caller. -/
def parse_resume (file_bytes : FileBytes) (filename : String) : String :=
  if pyEndsWith filename ".pdf" then
    match file_bytes.pdfPages with
    | some pages => String.join pages
    | none => ""
  else if pyEndsWith filename ".docx" then
    match file_bytes.docxParas with
    | some paras => String.intercalate "\n" paras
    | none => ""
  else ""

/-- One file handed over by the uploader widget: a display name and the
abstracted byte content. -/
structure UploadedFile where
  name : String
  bytes : FileBytes
deriving DecidableEq, Repr

/-- Observable trace of one batch run: the accumulated all_analyses list,
the prompt of every generate_content call issued, and the name of every file
passed to parse_resume, each in order. -/
structure BatchTrace where
  analyses : List CandidateAnalysis
  prompts : List String
  extracted : List String
deriving DecidableEq, Repr

/-- Empty trace at the start of a batch (all_analyses = [] of app.py
line 123). -/
def emptyTrace : BatchTrace :=
  { analyses := [], prompts := [], extracted := [] }

/-- Embedding of one iteration of the analyze loop of app.py lines 126 to
135 for the file f: extract text, and only when the text is non-empty (the
truthiness test on line 131) build the prompt, issue the model call through
the oracle gemini and append the analysis.  The progress-bar update carries
no data and is not modelled. -/
def processFile (gemini : String → String) (jd_input : String)
    (st : BatchTrace) (f : UploadedFile) : BatchTrace :=
  let resume_text := parse_resume f.bytes f.name
  if resume_text = "" then
    { st with extracted := st.extracted ++ [f.name] }
  else
    let prompt := buildPrompt jd_input resume_text
    let analysis := (analyzeParse (gemini prompt)).1
    { analyses := st.analyses ++ [analysis],
      prompts := st.prompts ++ [prompt],
      extracted := st.extracted ++ [f.name] }

/-- Embedding of the whole analyze loop: strictly sequential left fold over
the uploaded files in upload order. -/
def runBatch (gemini : String → String) (jd_input : String)
    (resume_files : List UploadedFile) : BatchTrace :=
  resume_files.foldl (processFile gemini jd_input) emptyTrace

/-- Comparison key of app.py line 140: sorted(key=lambda x: x.score,
reverse=True) orders a before b exactly when the score of b does not exceed
the score of a. -/
def scoreDescLe (a b : CandidateAnalysis) : Bool :=
  decide (b.score ≤ a.score)

/-- Embedding of app.py line 140: ranked_candidates = sorted(all_analyses,
key=lambda x: x.score, reverse=True).  Python sorted is a stable sort, and
with reverse=True equal keys still keep their original order; List.mergeSort
has exactly this stability property. -/
def rankedCandidates (all_analyses : List CandidateAnalysis) :
    List CandidateAnalysis :=
  all_analyses.mergeSort scoreDescLe

/-- Outcome of pressing the Analyze button: either a blocking validation
message (app.py lines 117 to 120) or a completed run presenting the ranked
candidates. -/
inductive RunOutcome where
  | validationError (msg : String) : RunOutcome
  | completed (ranked : List CandidateAnalysis) : RunOutcome
deriving DecidableEq, Repr

/-- Embedding of the Analyze button handler of app.py lines 116 to 140: an
empty (after stripping) job description or an empty upload list is rejected
with the matching st.error message before any processing, otherwise the
batch runs and the accumulated results are ranked.  The returned trace
records the extraction and model calls performed; both validation branches
leave it empty. -/
def analyzeButton (gemini : String → String) (jd_input : String)
    (resume_files : List UploadedFile) : RunOutcome × BatchTrace :=
  if pyStrip jd_input = "" then
    (.validationError "Please paste a job description.", emptyTrace)
  else if resume_files = [] then
    (.validationError "Please upload at least one resume.", emptyTrace)
  else
    let tr := runBatch gemini jd_input resume_files
    (.completed (rankedCandidates tr.analyses), tr)

/-- C7: for every file content and every filename that does not end in the
case-sensitive suffix .pdf or .docx, extraction returns the empty string;
parse_resume is a total function, so no exception propagates to the caller. -/
theorem C7_unrecognized_extension_empty (file_bytes : FileBytes) (filename : String)
    (h1 : pyEndsWith filename ".pdf" = false)
    (h2 : pyEndsWith filename ".docx" = false) :
    parse_resume file_bytes filename = "" := by
  simp [parse_resume, h1, h2]

/-- Witness for C7 at the filename resume.PDF, whose upper-case suffix shows
that the dispatch is case-sensitive. -/
theorem C7_witness :
    pyEndsWith "resume.PDF" ".pdf" = false ∧
      pyEndsWith "resume.PDF" ".docx" = false ∧
      parse_resume ⟨some ["page"], some ["para"]⟩ "resume.PDF" = "" :=
  ⟨by decide, by decide,
    C7_unrecognized_extension_empty ⟨some ["page"], some ["para"]⟩ "resume.PDF"
      (by decide) (by decide)⟩

/-- C8: for every well-formed document, extraction returns, for a filename
ending in .pdf, the concatenation of the per-page texts in page order with no
separator, and for a filename ending in .docx, the per-paragraph texts in
document order joined by newline characters. -/
theorem C8_extraction_joins (file_bytes : FileBytes) (filename : String) :
    (∀ pages, pyEndsWith filename ".pdf" = true →
      file_bytes.pdfPages = some pages →
      parse_resume file_bytes filename = String.join pages) ∧
    (∀ paras, pyEndsWith filename ".pdf" = false →
      pyEndsWith filename ".docx" = true →
      file_bytes.docxParas = some paras →
      parse_resume file_bytes filename = String.intercalate "\n" paras) := by
  constructor
  · intro pages h1 h2
    simp [parse_resume, h1, h2]
  · intro paras h1 h2 h3
    simp [parse_resume, h1, h2, h3]

/-- Witness for C8: a two-page PDF concatenates with no separator and a
two-paragraph DOCX joins with a newline. -/
theorem C8_witness :
    parse_resume ⟨some ["pg1", "pg2"], none⟩ "cv.pdf" = "pg1pg2" ∧
      parse_resume ⟨none, some ["p1", "p2"]⟩ "cv.docx" = "p1\np2" := by
  constructor
  · rw [(C8_extraction_joins ⟨some ["pg1", "pg2"], none⟩ "cv.pdf").1
      ["pg1", "pg2"] (by decide) rfl]
    rfl
  · rw [(C8_extraction_joins ⟨none, some ["p1", "p2"]⟩ "cv.docx").2
      ["p1", "p2"] (by decide) (by decide) rfl]
    rfl

/-- C1: for every raw model response whose prepared text is not syntactically
valid JSON, the parse step returns the fallback CandidateAnalysis with
candidate_name Unknown/Error, score 0, is_recommended false, and a reasoning
field containing the raw model response text; the emitted diagnostic names
the failure and, the function being total, no exception propagates.  Within
the integer-numeral JSON fragment the embedded parser models json.loads
exactly; float literals are outside the model. -/
theorem C1_invalid_json_fallback (raw e : String)
    (h : jsonParse (prepare raw) = .error e) :
    analyzeParse raw = (jsonErrorFallback raw, [jsonErrorDiagMsg e]) ∧
      (jsonErrorFallback raw).candidate_name = "Unknown/Error" ∧
      (jsonErrorFallback raw).score = 0 ∧
      (jsonErrorFallback raw).is_recommended = false ∧
      (jsonErrorFallback raw).reasoning =
        "Failed to parse model output, raw response : " ++ raw ∧
      raw.data <:+: (jsonErrorFallback raw).reasoning.data := by
  refine ⟨?_, rfl, rfl, rfl, rfl, ?_⟩
  · simp [analyzeParse, h]
  · exact ⟨"Failed to parse model output, raw response : ".data, [], by simp [jsonErrorFallback]⟩

/-- Witness for C1 at the raw response hello, which is not valid JSON. -/
theorem C1_witness :
    analyzeParse "hello" =
      (jsonErrorFallback "hello", [jsonErrorDiagMsg "Expecting value"]) :=
  (C1_invalid_json_fallback "hello" "Expecting value" (by rfl)).1

/-- C4: for every syntactically valid JSON object response containing all
required fields, with score an integer between 0 and 100 and is_recommended
any boolean, the parse step accepts the response and returns a
CandidateAnalysis carrying the response values unchanged, with no
diagnostic; in particular nothing relates is_recommended to score, so the
inconsistent pair score 50 with is_recommended true passes through (see the
witness). -/
theorem C4_no_consistency_check (raw : String) (fields : List (String × JValue))
    (name summ reas : String) (n : Int) (b : Bool)
    (hp : jsonParse (prepare raw) = .ok (.obj fields))
    (hname : dictGet fields "candidate_name" = some (.str name))
    (hscore : dictGet fields "score" = some (.num n))
    (h0 : 0 ≤ n) (h100 : n ≤ 100)
    (hsumm : dictGet fields "summary" = some (.str summ))
    (hreas : dictGet fields "reasoning" = some (.str reas))
    (hrec : dictGet fields "is_recommended" = some (.bool b)) :
    analyzeParse raw =
      ({ candidate_name := name, score := n, summary := summ,
         reasoning := reas, is_recommended := b }, []) := by
  have hnorm : normalizeReasoning fields = fields := by
    simp [normalizeReasoning, hreas]
  have hbuild : buildCandidate fields = .ok
      { candidate_name := name, score := n, summary := summ,
        reasoning := reas, is_recommended := b } := by
    rw [buildCandidate, hname, hscore, hsumm, hreas, hrec]
    simp only [validateStr, validateInt, validateBool]
    rw [if_neg (by omega : ¬ n < 0), if_neg (by omega : ¬ 100 < n)]
  simp [analyzeParse, hp, hnorm, hbuild]

/-- Witness for C4 at the inconsistent response of the specification, score
50 together with is_recommended true: it is accepted unchanged. -/
theorem C4_witness :
    analyzeParse "\x7b\"candidate_name\": \"Jane Doe\", \"score\": 50, \"summary\": \"ok\", \"reasoning\": \"r\", \"is_recommended\": true\x7d" =
      ({ candidate_name := "Jane Doe", score := 50, summary := "ok",
         reasoning := "r", is_recommended := true }, []) :=
  C4_no_consistency_check
    "\x7b\"candidate_name\": \"Jane Doe\", \"score\": 50, \"summary\": \"ok\", \"reasoning\": \"r\", \"is_recommended\": true\x7d"
    [("candidate_name", .str "Jane Doe"), ("score", .num 50), ("summary", .str "ok"),
      ("reasoning", .str "r"), ("is_recommended", .bool true)]
    "Jane Doe" "ok" "r" 50 true (by rfl) (by rfl) (by rfl) (by decide) (by decide)
    (by rfl) (by rfl) (by rfl)

/-- Counterexample to C3 as stated: the syntactically valid JSON response
below violates the score range constraint (score 150), yet the record the
parse step returns does not have a reasoning field containing the raw model
response text, because a pydantic ValidationError is a ValueError and lands
in the generic handler of app.py line 88, not in the handler of line 82 that
embeds the raw response. -/
theorem C3_counterexample :
    ¬ (("\x7b\"candidate_name\": \"Jane\", \"score\": 150, \"summary\": \"s\", \"reasoning\": \"r\", \"is_recommended\": true\x7d").data <:+:
      (analyzeParse "\x7b\"candidate_name\": \"Jane\", \"score\": 150, \"summary\": \"s\", \"reasoning\": \"r\", \"is_recommended\": true\x7d").1.reasoning.data) := by
  decide

/-- C3 as amended: for every syntactically valid JSON object response that
violates a CandidateAnalysis field constraint at construction (score outside
0 to 100, a field of a non-coercible type, or a missing required key;
non-emptiness of text fields is not a constraint and is not enforced), the
violation is caught and the parse step returns the fallback record with
candidate_name Unknown/Error, score 0, is_recommended false — but through
the generic unexpected-error handler: the diagnostic is the generic one and
the reasoning field contains the validation error text, not the raw model
response text. -/
theorem C3_amended_validation_generic_fallback (raw e : String)
    (fields : List (String × JValue))
    (hp : jsonParse (prepare raw) = .ok (.obj fields))
    (hb : buildCandidate (normalizeReasoning fields) = .error e) :
    analyzeParse raw = (unexpectedFallback e, [unexpectedDiagMsg e]) ∧
      (unexpectedFallback e).candidate_name = "Unknown/Error" ∧
      (unexpectedFallback e).score = 0 ∧
      (unexpectedFallback e).is_recommended = false ∧
      (unexpectedFallback e).reasoning = "An unexpected error occurred : " ++ e := by
  refine ⟨?_, rfl, rfl, rfl, rfl⟩
  simp [analyzeParse, hp, hb]

/-- Witness for the amended C3 at a response whose score is 150. -/
theorem C3_witness :
    analyzeParse "\x7b\"candidate_name\": \"Jane\", \"score\": 150, \"summary\": \"s\", \"reasoning\": \"r\", \"is_recommended\": true\x7d" =
      (unexpectedFallback
        "1 validation error for CandidateAnalysis\nscore\n  ensure this value is less than or equal to 100",
       [unexpectedDiagMsg
        "1 validation error for CandidateAnalysis\nscore\n  ensure this value is less than or equal to 100"]) :=
  (C3_amended_validation_generic_fallback
    "\x7b\"candidate_name\": \"Jane\", \"score\": 150, \"summary\": \"s\", \"reasoning\": \"r\", \"is_recommended\": true\x7d"
    "1 validation error for CandidateAnalysis\nscore\n  ensure this value is less than or equal to 100"
    [("candidate_name", .str "Jane"), ("score", .num 150), ("summary", .str "s"),
      ("reasoning", .str "r"), ("is_recommended", .bool true)]
    (by rfl) (by rfl)).1

/-- Transitivity of the descending-score comparison. -/
theorem scoreDescLe_trans : ∀ a b c : CandidateAnalysis,
    scoreDescLe a b = true → scoreDescLe b c = true → scoreDescLe a c = true := by
  intro a b c hab hbc
  simp only [scoreDescLe, decide_eq_true_eq] at *
  omega

/-- Totality of the descending-score comparison. -/
theorem scoreDescLe_total : ∀ a b : CandidateAnalysis,
    (scoreDescLe a b || scoreDescLe b a) = true := by
  intro a b
  simp only [scoreDescLe, Bool.or_eq_true, decide_eq_true_eq]
  omega

/-- C5: the rendered ranking is the accumulated result list sorted by score
in descending order with a stable sort: it is a permutation of the input,
pairwise descending in score, and for every score value the sub-sequence of
records carrying that score is exactly the one of the input, so ties keep
their encounter order. -/
theorem C5_ranking_stable_descending (l : List CandidateAnalysis) :
    (rankedCandidates l).Perm l ∧
      List.Pairwise (fun a b => b.score ≤ a.score) (rankedCandidates l) ∧
      ∀ s : Int, (rankedCandidates l).filter (fun c => c.score == s) =
        l.filter (fun c => c.score == s) := by
  refine ⟨List.mergeSort_perm l scoreDescLe, ?_, ?_⟩
  · have hs := List.sorted_mergeSort scoreDescLe_trans scoreDescLe_total l
    exact hs.imp (fun h => by simpa [scoreDescLe] using h)
  · intro s
    have hsub : (l.filter (fun c => c.score == s)).Sublist l := List.filter_sublist l
    have hpair : List.Pairwise (fun a b => scoreDescLe a b = true)
        (l.filter (fun c => c.score == s)) := by
      apply List.pairwise_of_forall_mem_list
      intro a ha b hb
      have ha2 := (List.mem_filter.mp ha).2
      have hb2 := (List.mem_filter.mp hb).2
      simp only [beq_iff_eq] at ha2 hb2
      simp only [scoreDescLe, decide_eq_true_eq, ha2, hb2, le_refl]
    have h1 : (l.filter (fun c => c.score == s)).Sublist (l.mergeSort scoreDescLe) :=
      List.sublist_mergeSort scoreDescLe_trans scoreDescLe_total hpair hsub
    have h2 := List.Sublist.filter (fun c => c.score == s) h1
    rw [List.filter_filter] at h2
    simp only [Bool.and_self] at h2
    have h3 : ((l.mergeSort scoreDescLe).filter (fun c => c.score == s)).Perm
        (l.filter (fun c => c.score == s)) :=
      (List.mergeSort_perm l scoreDescLe).filter (fun c => c.score == s)
    exact (h2.eq_of_length h3.length_eq.symm).symm

/-- Analyses and prompts of a batch continuation only depend on the analyses
and prompts already accumulated, not on the extraction log. -/
theorem foldl_processFile_congr :
    ∀ (files : List UploadedFile) (g : String → String) (jd : String)
      (st st' : BatchTrace),
      st.analyses = st'.analyses → st.prompts = st'.prompts →
      (files.foldl (processFile g jd) st).analyses =
        (files.foldl (processFile g jd) st').analyses ∧
      (files.foldl (processFile g jd) st).prompts =
        (files.foldl (processFile g jd) st').prompts := by
  intro files
  induction files with
  | nil => intro g jd st st' h1 h2; exact ⟨h1, h2⟩
  | cons f fs ih =>
    intro g jd st st' h1 h2
    rw [List.foldl_cons, List.foldl_cons]
    apply ih
    · by_cases h : parse_resume f.bytes f.name = "" <;> simp [processFile, h, h1]
    · by_cases h : parse_resume f.bytes f.name = "" <;> simp [processFile, h, h2]

/-- C6: a resume whose extraction yields the empty string triggers no model
call and adds no entry to the accumulated results: processing it only logs
the extraction attempt, and a whole batch containing such a file produces
exactly the analyses and model calls of the batch without it. -/
theorem C6_empty_extraction_skipped (g : String → String) (jd : String)
    (fs1 fs2 : List UploadedFile) (f : UploadedFile)
    (h : parse_resume f.bytes f.name = "") :
    processFile g jd (runBatch g jd fs1) f =
      { runBatch g jd fs1 with
        extracted := (runBatch g jd fs1).extracted ++ [f.name] } ∧
      (runBatch g jd (fs1 ++ f :: fs2)).analyses =
        (runBatch g jd (fs1 ++ fs2)).analyses ∧
      (runBatch g jd (fs1 ++ f :: fs2)).prompts =
        (runBatch g jd (fs1 ++ fs2)).prompts := by
  have hstep : ∀ st : BatchTrace, processFile g jd st f =
      { st with extracted := st.extracted ++ [f.name] } := by
    intro st
    simp [processFile, h]
  have hcongr := foldl_processFile_congr fs2 g jd
    { runBatch g jd fs1 with extracted := (runBatch g jd fs1).extracted ++ [f.name] }
    (runBatch g jd fs1) rfl rfl
  refine ⟨hstep _, ?_, ?_⟩
  · rw [runBatch, runBatch, List.foldl_append, List.foldl_append, List.foldl_cons, hstep]
    exact hcongr.1
  · rw [runBatch, runBatch, List.foldl_append, List.foldl_append, List.foldl_cons, hstep]
    exact hcongr.2

/-- Witness for C6: a text file (extraction yields the empty string) placed
between two empty file groups leaves the run state untouched apart from the
extraction log. -/
theorem C6_witness :
    processFile (fun _ => "out") "jd" (runBatch (fun _ => "out") "jd" []) ⟨"cv.txt", ⟨none, none⟩⟩ =
      { runBatch (fun _ => "out") "jd" [] with
        extracted := (runBatch (fun _ => "out") "jd" []).extracted ++ ["cv.txt"] } ∧
      (runBatch (fun _ => "out") "jd" ([] ++ ⟨"cv.txt", ⟨none, none⟩⟩ :: [])).analyses =
        (runBatch (fun _ => "out") "jd" ([] ++ [])).analyses ∧
      (runBatch (fun _ => "out") "jd" ([] ++ ⟨"cv.txt", ⟨none, none⟩⟩ :: [])).prompts =
        (runBatch (fun _ => "out") "jd" ([] ++ [])).prompts :=
  C6_empty_extraction_skipped (fun _ => "out") "jd" [] [] ⟨"cv.txt", ⟨none, none⟩⟩ (by rfl)

/-- C9: whenever the job description is empty or no file was uploaded, the
Analyze handler stops at a blocking validation message and its trace is
empty: no extraction is performed, no model call is issued and no partial
results exist. -/
theorem C9_input_validation_blocks (g : String → String) (jd_input : String)
    (resume_files : List UploadedFile)
    (h : jd_input = "" ∨ resume_files = []) :
    ((analyzeButton g jd_input resume_files).1 =
        .validationError "Please paste a job description." ∨
      (analyzeButton g jd_input resume_files).1 =
        .validationError "Please upload at least one resume.") ∧
      (analyzeButton g jd_input resume_files).2 = emptyTrace := by
  rcases h with h | h
  · subst h
    have hstrip : pyStrip "" = "" := rfl
    simp [analyzeButton, hstrip]
  · subst h
    by_cases hjd : pyStrip jd_input = ""
    · simp [analyzeButton, hjd]
    · simp [analyzeButton, hjd]

/-- Witness for C9 at an empty job description with one uploaded file. -/
theorem C9_witness :
    ((analyzeButton (fun _ => "out") "" [⟨"cv.pdf", ⟨some ["text"], none⟩⟩]).1 =
        .validationError "Please paste a job description." ∨
      (analyzeButton (fun _ => "out") "" [⟨"cv.pdf", ⟨some ["text"], none⟩⟩]).1 =
        .validationError "Please upload at least one resume.") ∧
      (analyzeButton (fun _ => "out") "" [⟨"cv.pdf", ⟨some ["text"], none⟩⟩]).2 = emptyTrace :=
  C9_input_validation_blocks (fun _ => "out") "" [⟨"cv.pdf", ⟨some ["text"], none⟩⟩]
    (Or.inl rfl)

/-- Every successfully constructed CandidateAnalysis satisfies the score
range constraints ge=0, le=100 of models.py line 6. -/
theorem buildCandidate_score_range (fields : List (String × JValue))
    (c : CandidateAnalysis) (h : buildCandidate fields = .ok c) :
    0 ≤ c.score ∧ c.score ≤ 100 := by
  unfold buildCandidate at h
  repeat' split at h
  all_goals cases h
  all_goals constructor <;> simp <;> omega

/-- Every record the analysis step returns is within the score range: the
two fallback records carry score 0 and the successful path went through
buildCandidate. -/
theorem analyzeParse_score_range (raw : String) :
    0 ≤ (analyzeParse raw).1.score ∧ (analyzeParse raw).1.score ≤ 100 := by
  cases hj : jsonParse (prepare raw) with
  | error e =>
    have h2 : analyzeParse raw = (jsonErrorFallback raw, [jsonErrorDiagMsg e]) := by
      simp [analyzeParse, hj]
    rw [h2]
    norm_num [jsonErrorFallback]
  | ok v =>
    cases v with
    | null =>
      have h2 : analyzeParse raw =
          (unexpectedFallback attrErrMsg, [unexpectedDiagMsg attrErrMsg]) := by
        simp [analyzeParse, hj]
      rw [h2]
      norm_num [unexpectedFallback]
    | bool b =>
      have h2 : analyzeParse raw =
          (unexpectedFallback attrErrMsg, [unexpectedDiagMsg attrErrMsg]) := by
        simp [analyzeParse, hj]
      rw [h2]
      norm_num [unexpectedFallback]
    | num n =>
      have h2 : analyzeParse raw =
          (unexpectedFallback attrErrMsg, [unexpectedDiagMsg attrErrMsg]) := by
        simp [analyzeParse, hj]
      rw [h2]
      norm_num [unexpectedFallback]
    | str s =>
      have h2 : analyzeParse raw =
          (unexpectedFallback attrErrMsg, [unexpectedDiagMsg attrErrMsg]) := by
        simp [analyzeParse, hj]
      rw [h2]
      norm_num [unexpectedFallback]
    | arr elems =>
      have h2 : analyzeParse raw =
          (unexpectedFallback attrErrMsg, [unexpectedDiagMsg attrErrMsg]) := by
        simp [analyzeParse, hj]
      rw [h2]
      norm_num [unexpectedFallback]
    | obj fields =>
      cases hb : buildCandidate (normalizeReasoning fields) with
      | error e =>
        have h2 : analyzeParse raw = (unexpectedFallback e, [unexpectedDiagMsg e]) := by
          simp [analyzeParse, hj, hb]
        rw [h2]
        norm_num [unexpectedFallback]
      | ok c =>
        have h2 : analyzeParse raw = (c, []) := by
          simp [analyzeParse, hj, hb]
        rw [h2]
        simpa using buildCandidate_score_range (normalizeReasoning fields) c hb

/-- Every analysis accumulated by the batch loop is either inherited from
the starting state or produced by the analysis step on some raw response. -/
theorem runBatch_analyses_mem :
    ∀ (files : List UploadedFile) (g : String → String) (jd : String)
      (st : BatchTrace) (c : CandidateAnalysis),
      c ∈ (files.foldl (processFile g jd) st).analyses →
      c ∈ st.analyses ∨ ∃ raw, c = (analyzeParse raw).1 := by
  intro files
  induction files with
  | nil => intro g jd st c hc; exact Or.inl hc
  | cons f fs ih =>
    intro g jd st c hc
    rw [List.foldl_cons] at hc
    rcases ih g jd (processFile g jd st f) c hc with hmem | hex
    · by_cases h : parse_resume f.bytes f.name = ""
      · rw [processFile] at hmem
        simp only [h, if_pos rfl] at hmem
        exact Or.inl hmem
      · rw [processFile] at hmem
        simp only [if_neg h] at hmem
        rcases List.mem_append.mp hmem with hl | hr
        · exact Or.inl hl
        · exact Or.inr ⟨g (buildPrompt jd (parse_resume f.bytes f.name)),
            List.mem_singleton.mp hr⟩
    · exact Or.inr hex

/-- C10: every CandidateAnalysis the analysis step returns, on the
successful-parse path as well as on both fallback paths, has a score in the
inclusive range 0 to 100, and consequently so does every record in the
accumulated results and in the rendered ranking of any run. -/
theorem C10_score_always_in_range :
    (∀ raw : String,
      0 ≤ (analyzeParse raw).1.score ∧ (analyzeParse raw).1.score ≤ 100) ∧
    ∀ (g : String → String) (jd_input : String)
      (resume_files : List UploadedFile)
      (ranked : List CandidateAnalysis) (c : CandidateAnalysis),
      (analyzeButton g jd_input resume_files).1 = .completed ranked →
      c ∈ ranked → 0 ≤ c.score ∧ c.score ≤ 100 := by
  refine ⟨analyzeParse_score_range, ?_⟩
  intro g jd files ranked c hout hc
  have hranked : ranked = rankedCandidates (runBatch g jd files).analyses := by
    by_cases h1 : pyStrip jd = ""
    · simp [analyzeButton, h1] at hout
    · by_cases h2 : files = []
      · simp [analyzeButton, h1, h2] at hout
      · simp [analyzeButton, h1, h2] at hout
        exact hout.symm
  subst hranked
  have hmem : c ∈ (runBatch g jd files).analyses :=
    (List.mergeSort_perm (runBatch g jd files).analyses scoreDescLe).mem_iff.mp hc
  rcases runBatch_analyses_mem files g jd emptyTrace c hmem with habs | ⟨raw, hraw⟩
  · simp [emptyTrace] at habs
  · rw [hraw]
    exact analyzeParse_score_range raw

/-- Witness for C10: a one-file run against an oracle answering junk yields
a ranking containing only the zero-score fallback record, which satisfies
the range. -/
theorem C10_witness :
    (analyzeButton (fun _ => "junk") "jd" [⟨"cv.pdf", ⟨some ["text"], none⟩⟩]).1 =
        .completed [jsonErrorFallback "junk"] ∧
      jsonErrorFallback "junk" ∈ [jsonErrorFallback "junk"] ∧
      0 ≤ (jsonErrorFallback "junk").score ∧ (jsonErrorFallback "junk").score ≤ 100 := by
  have hout : (analyzeButton (fun _ => "junk") "jd" [⟨"cv.pdf", ⟨some ["text"], none⟩⟩]).1 =
      .completed [jsonErrorFallback "junk"] := by
    have h1 : runBatch (fun _ => "junk") "jd" [⟨"cv.pdf", ⟨some ["text"], none⟩⟩] =
        { analyses := [jsonErrorFallback "junk"],
          prompts := [buildPrompt "jd" "text"],
          extracted := ["cv.pdf"] } := by rfl
    have h2 : pyStrip "jd" = "jd" := rfl
    simp [analyzeButton, h2, h1, rankedCandidates]
  have hrange := (C10_score_always_in_range).2 (fun _ => "junk") "jd"
    [⟨"cv.pdf", ⟨some ["text"], none⟩⟩] [jsonErrorFallback "junk"]
    (jsonErrorFallback "junk") hout (List.mem_singleton.mpr rfl)
  exact ⟨hout, List.mem_singleton.mpr rfl, hrange⟩

/-- Backquote character, the building block of the code-fence markers. -/
def bq : Char := '\x60'

/-- Number of leading backquotes of a character list. -/
def lbCount (l : List Char) : Nat :=
  (l.takeWhile (fun c => c == bq)).length

/-- Leading-backquote count of a cons cell. -/
theorem lbCount_cons (c : Char) (l : List Char) :
    lbCount (c :: l) = if c = bq then lbCount l + 1 else 0 := by
  by_cases h : c = bq <;> simp [lbCount, List.takeWhile_cons, h]

/-- A list with at least two leading backquotes starts with two of them. -/
theorem lbCount_two_shape (m : List Char) (h : 2 ≤ lbCount m) :
    ∃ t, m = bq :: bq :: t := by
  match m with
  | [] => simp [lbCount] at h
  | [c1] =>
    rw [lbCount_cons] at h
    split at h <;> simp [lbCount] at h
  | c1 :: c2 :: t =>
    rw [lbCount_cons] at h
    by_cases h1 : c1 = bq
    · rw [if_pos h1, lbCount_cons] at h
      by_cases h2 : c2 = bq
      · exact ⟨t, by rw [h1, h2]⟩
      · rw [if_neg h2] at h
        omega
    · rw [if_neg h1] at h
      omega

/-- The fence pattern is a Boolean prefix of a list exactly when the list
starts with three backquotes. -/
theorem fence_isPrefixOf_shape (m : List Char) :
    (("```".data).isPrefixOf m = true) ↔ ∃ t, m = bq :: bq :: bq :: t := by
  rw [List.isPrefixOf_iff_prefix]
  constructor
  · rintro ⟨t, ht⟩
    exact ⟨t, ht.symm⟩
  · rintro ⟨t, ht⟩
    exact ⟨t, ht.symm⟩

/-- Replacement is the identity on inputs that contain no occurrence of the
pattern at all. -/
theorem replaceListAux_id_of_no_occurrence (old new : List Char) :
    ∀ (fuel : Nat) (l : List Char), ¬ (old <:+: l) →
      replaceListAux old new fuel l = l := by
  intro fuel
  induction fuel with
  | zero => intro l _; rfl
  | succ fuel ih =>
    intro l hno
    match l with
    | [] => rfl
    | c :: rest =>
      have hpre : old.isPrefixOf (c :: rest) = false := by
        rw [Bool.eq_false_iff]
        intro hc
        exact hno (List.IsPrefix.isInfix (List.isPrefixOf_iff_prefix.mp hc))
      have hrest : ¬ (old <:+: rest) := fun hc => hno (List.infix_cons_iff.mpr (Or.inr hc))
      simp only [replaceListAux, hpre, Bool.false_eq_true, if_false]
      rw [ih rest hrest]

/-- Core invariant of the fence-removal scan: the output never contains the
three-backquote fence pattern, and its leading-backquote count is bounded by
the input count and by two. -/
theorem replaceFence_spec :
    ∀ (fuel : Nat) (l : List Char), l.length ≤ fuel →
      lbCount (replaceListAux "```".data [] fuel l) ≤ min (lbCount l) 2 ∧
        ¬ (("```".data) <:+: replaceListAux "```".data [] fuel l) := by
  intro fuel
  induction fuel with
  | zero =>
    intro l hl
    have hnil : l = [] := List.length_eq_zero.mp (Nat.le_zero.mp hl)
    subst hnil
    refine ⟨by simp [replaceListAux, lbCount], ?_⟩
    show ¬ (("```".data) <:+: ([] : List Char))
    decide
  | succ fuel ih =>
    intro l hl
    match l with
    | [] =>
      refine ⟨by simp [replaceListAux, lbCount], ?_⟩
      show ¬ (("```".data) <:+: ([] : List Char))
      decide
    | c :: rest =>
      by_cases hpre : ("```".data).isPrefixOf (c :: rest) = true
      · obtain ⟨t, ht⟩ := (fence_isPrefixOf_shape (c :: rest)).mp hpre
        obtain ⟨hc, hrest⟩ := List.cons_eq_cons.mp ht
        have hdrop : rest.drop (("```".data).length - 1) = t := by
          rw [hrest]
          rfl
        have hlt : t.length ≤ fuel := by
          rw [hrest] at hl
          simp only [List.length_cons] at hl
          omega
        obtain ⟨ih1, ih2⟩ := ih t hlt
        have hres : replaceListAux "```".data [] (fuel + 1) (c :: rest) =
            replaceListAux "```".data [] fuel t := by
          simp only [replaceListAux]
          rw [if_pos hpre, hdrop]
          exact List.nil_append _
        rw [hres]
        refine ⟨?_, ih2⟩
        have hcnt : lbCount (c :: rest) = lbCount t + 3 := by
          rw [hc, hrest, lbCount_cons, if_pos rfl, lbCount_cons, if_pos rfl,
            lbCount_cons, if_pos rfl]
        rw [hcnt]
        omega
      · have hres : replaceListAux "```".data [] (fuel + 1) (c :: rest) =
            c :: replaceListAux "```".data [] fuel rest := by
          simp only [replaceListAux]
          rw [if_neg hpre]
        have hrl : rest.length ≤ fuel := by
          simp only [List.length_cons] at hl
          omega
        obtain ⟨ih1, ih2⟩ := ih rest hrl
        rw [hres]
        by_cases hc : c = bq
        · have hrest1 : lbCount rest ≤ 1 := by
            by_contra hcon
            obtain ⟨t, ht⟩ := lbCount_two_shape rest (by omega)
            exact hpre ((fence_isPrefixOf_shape (c :: rest)).mpr ⟨t, by rw [hc, ht]⟩)
          constructor
          · rw [lbCount_cons, if_pos hc, lbCount_cons, if_pos hc]
            omega
          · intro hcon
            rcases List.infix_cons_iff.mp hcon with hp | hi
            · obtain ⟨u, hu⟩ := hp
              have hu2 : bq :: bq :: bq :: u =
                  c :: replaceListAux "```".data [] fuel rest := hu
              obtain ⟨-, hx⟩ := List.cons_eq_cons.mp hu2
              have h2c : 2 ≤ lbCount (replaceListAux "```".data [] fuel rest) := by
                rw [← hx, lbCount_cons, if_pos rfl, lbCount_cons, if_pos rfl]
                omega
              omega
            · exact ih2 hi
        · constructor
          · rw [lbCount_cons, if_neg hc]
            omega
          · intro hcon
            rcases List.infix_cons_iff.mp hcon with hp | hi
            · obtain ⟨u, hu⟩ := hp
              have hu2 : bq :: bq :: bq :: u =
                  c :: replaceListAux "```".data [] fuel rest := hu
              obtain ⟨hcb, -⟩ := List.cons_eq_cons.mp hu2
              exact hc hcb.symm
            · exact ih2 hi

/-- Stripping is the identity on a string with no leading and no trailing
whitespace. -/
theorem pyStrip_eq_self (s : String)
    (h1 : s.data.dropWhile isPyWs = s.data)
    (h2 : s.data.reverse.dropWhile isPyWs = s.data.reverse) :
    pyStrip s = s := by
  unfold pyStrip
  rw [h1, h2, List.reverse_reverse]

/-- Counterexample to C2 as stated: the fence-marker sequence in the middle
of the text a```b is not leading, not trailing, and there is no surrounding
whitespace, so under the claim the preprocessing would leave the text
intact; the code removes the interior occurrence. -/
theorem C2_counterexample :
    prepare "a```b" = "ab" ∧ ("a```b" : String) ≠ "ab" :=
  ⟨rfl, by decide⟩

/-- C2 as amended: the preprocessing trims surrounding whitespace and then
deletes every occurrence of the fence markers throughout the text, interior
occurrences included: no fence marker survives anywhere in the prepared
output, and a text with no fence-marker occurrence and no surrounding
whitespace is returned unchanged. -/
theorem C2_amended_fences_removed_globally (raw : String) :
    (¬ (("```".data) <:+: (prepare raw).data)) ∧
      ((¬ (("```".data) <:+: raw.data)) →
        raw.data.dropWhile isPyWs = raw.data →
        raw.data.reverse.dropWhile isPyWs = raw.data.reverse →
        prepare raw = raw) := by
  constructor
  · have hdata : (prepare raw).data =
        replaceListAux "```".data []
          ((replaceStr (pyStrip raw) "```json" "").data.length)
          (replaceStr (pyStrip raw) "```json" "").data := rfl
    rw [hdata]
    exact (replaceFence_spec _ _ le_rfl).2
  · intro hnf h1 h2
    have hstrip : pyStrip raw = raw := pyStrip_eq_self raw h1 h2
    have hnf7 : ¬ (("```json".data) <:+: raw.data) := fun hcon =>
      hnf (List.IsInfix.trans (by decide : ("```".data) <:+: ("```json".data)) hcon)
    have e1 : replaceStr raw "```json" "" = raw := by
      show String.mk (replaceListAux "```json".data "".data raw.data.length raw.data) = raw
      rw [replaceListAux_id_of_no_occurrence "```json".data "".data raw.data.length
        raw.data hnf7]
    have e2 : replaceStr raw "```" "" = raw := by
      show String.mk (replaceListAux "```".data "".data raw.data.length raw.data) = raw
      rw [replaceListAux_id_of_no_occurrence "```".data "".data raw.data.length
        raw.data hnf]
    show replaceStr (replaceStr (pyStrip raw) "```json" "") "```" "" = raw
    rw [hstrip, e1, e2]

/-- Witness for the amended C2: an interior fence disappears from the
prepared output, and a clean text passes through unchanged. -/
theorem C2_witness :
    (¬ (("```".data) <:+: (prepare "x``` ```json y").data)) ∧
      prepare "ab" = "ab" :=
  ⟨(C2_amended_fences_removed_globally "x``` ```json y").1,
   (C2_amended_fences_removed_globally "ab").2 (by decide) (by decide) (by decide)⟩
